import Mathlib

/-!
Shallow embedding of the `elastic_ip_manager` reconciler
(`src/elastic_ip_manager/manager.py`, `eip.py`, `ec2_instance.py`).

External calls (the EC2/tagging/cloudwatch APIs) are modelled by a `World`
record of oracles; a reconciliation operation returns an `Outcome`: the log
lines it wrote, the mutation calls it issued, and either normal return or the
exception that escaped.  Machine behaviour is translated line by line from the
Python source; exceptions the Python code can raise are modelled by `Err`.
-/

namespace ElasticIpManager

/-- Log severity, mirroring the `log.debug`/`info`/`warning`/`error` calls. -/
inductive LogLevel where
  | debug
  | info
  | warning
  | error
deriving DecidableEq

/-- One emitted log line: severity plus rendered message. -/
structure LogMsg where
  level : LogLevel
  msg : String
deriving DecidableEq

/-- A mutation call issued to the EC2 API.  `associate` records the triple the
Python loop builds (`instance_id`, `primary_network_interface_id`,
`allocation_id`); `disassociate` records the `AssociationId` argument. -/
inductive ApiCall where
  | associate (instanceId : String) (networkInterfaceId : Option String)
      (allocationId : String)
  | disassociate (associationId : Option String)
deriving DecidableEq

/-- Exceptions that can escape the handler.  `attributeError` is Python's
`AttributeError` from calling `.get` on `None` (a missing `detail` mapping);
`inventoryUnavailable` is an uncaught failure of an inventory listing call;
`metricFailure` is an uncaught failure of `cloudwatch.put_metric_data`. -/
inductive Err where
  | attributeError
  | inventoryUnavailable
  | metricFailure
deriving DecidableEq

/-- One Elastic IP record, as wrapped by class `EIP` in `eip.py`:
`AllocationId`, optional `AssociationId`, optional `InstanceId`. -/
structure EIP where
  allocation_id : String
  association_id : Option String
  instance_id : Option String
deriving DecidableEq

/-- `EIP.is_associated`: the address has an `AssociationId`. -/
def EIP.is_associated (a : EIP) : Bool :=
  a.association_id.isSome

/-- One EC2 instance record, as wrapped by class `EC2Instance` in
`ec2_instance.py`: `InstanceId`, the list of network-interface ids, and the
value of the `elastic-ip-manager-pool` tag when present. -/
structure EC2Instance where
  instance_id : String
  network_interfaces : List String
  pool_name : Option String
deriving DecidableEq

/-- `EC2Instance.primary_network_interface_id`: the first network interface's
id if any (`self["NetworkInterfaces"][0]` guarded by truthiness). -/
def EC2Instance.primary_network_interface_id (i : EC2Instance) : Option String :=
  i.network_interfaces.head?

/-- An inbound event record: the fields the handler reads.  `detail` is
`none` when the event carries no `"detail"` key at all. -/
structure Event where
  source : Option String
  detail_type : Option String
  detail : Option (List (String × String))
deriving DecidableEq

/-- `dict.get` on the event's `detail` mapping. -/
def detailGet (d : List (String × String)) (k : String) : Option String :=
  (d.find? (fun p => p.1 == k)).map (fun p => p.2)

/-- The external AWS world: inventory listings (which may fail with an
uncaught exception), single-instance description (whose `ClientError` is
caught, yielding `none`), tag-value enumeration, and per-call success oracles
for the mutation and metric calls (`false` means the call raises
`ClientError`). -/
structure World where
  pool_addresses : String → Except Unit (List EIP)
  pool_instances : String → Except Unit (List EC2Instance)
  describe_pool_instance : Option String → Option EC2Instance
  all_pool_names : Except Unit (List String)
  associate_ok : Option String → String → Bool
  disassociate_ok : Option String → Bool
  metric_ok : String → Bool

instance {ε α : Type} [DecidableEq ε] [DecidableEq α] : DecidableEq (Except ε α) :=
  fun x y =>
  match x, y with
  | .ok a, .ok b =>
    if h : a = b then isTrue (by rw [h]) else
      isFalse (by intro hh; injection hh with h2; exact h h2)
  | .error a, .error b =>
    if h : a = b then isTrue (by rw [h]) else
      isFalse (by intro hh; injection hh with h2; exact h h2)
  | .ok _, .error _ => isFalse (fun hh => Except.noConfusion hh)
  | .error _, .ok _ => isFalse (fun hh => Except.noConfusion hh)

/-- The result of running an operation: log lines written, mutation calls
issued (in order), and normal return or the escaping exception. -/
structure Outcome where
  logs : List LogMsg
  calls : List ApiCall
  result : Except Err Unit
deriving DecidableEq

/-- Sequencing of two operations: if the first raises, the second never runs
(its logs and calls are discarded). -/
def Outcome.seq (o₁ o₂ : Outcome) : Outcome :=
  match o₁.result with
  | .error e => ⟨o₁.logs, o₁.calls, .error e⟩
  | .ok _ => ⟨o₁.logs ++ o₂.logs, o₁.calls ++ o₂.calls, o₂.result⟩

/-- Class `Manager`: pool name plus the cached address and instance lists. -/
structure Manager where
  pool_name : String
  addresses : List EIP
  instances : List EC2Instance
deriving DecidableEq

/-- `Manager.refresh`: re-fetch both inventories; an error in either listing
propagates (the Python code does not catch it). -/
def Manager.refresh (w : World) (m : Manager) : Except Unit Manager :=
  match w.pool_addresses m.pool_name with
  | .error e => .error e
  | .ok a =>
    match w.pool_instances m.pool_name with
    | .error e => .error e
    | .ok i => .ok { m with addresses := a, instances := i }

/-- `Manager.instance_addresses`: pool addresses whose `InstanceId` equals the
given id. -/
def Manager.instance_addresses (m : Manager) (instance_id : String) : List EIP :=
  m.addresses.filter (fun a => a.instance_id == some instance_id)

/-- `Manager.available_addresses`: pool addresses with no association. -/
def Manager.available_addresses (m : Manager) : List EIP :=
  m.addresses.filter (fun a => !a.is_associated)

/-- Helper for `dedupKeyed`: drop the instances whose id was already seen. -/
def dedupAux (seen : List String) : List EC2Instance → List EC2Instance
  | [] => []
  | i :: rest =>
    if seen.contains i.instance_id then dedupAux seen rest
    else i :: dedupAux (i.instance_id :: seen) rest

/-- Python's `set(self.instances)`: deduplicate by `InstanceId` (class
`EC2Instance` hashes and compares on `InstanceId` alone), keeping the first
occurrence, in a fixed enumeration order. -/
def dedupKeyed (l : List EC2Instance) : List EC2Instance :=
  dedupAux [] l

/-- `Manager.unattached_instances`: `set(instances) - attached_instances`,
i.e. the (deduplicated) instances with no pool address bound to them. -/
def Manager.unattached_instances (m : Manager) : List EC2Instance :=
  (dedupKeyed m.instances).filter
    (fun i => (m.addresses.filter (fun a => a.instance_id == some i.instance_id)).isEmpty)

/-- Render an optional string the way Python string-formats it (`None`). -/
def optStr (o : Option String) : String :=
  o.getD "None"

/-- Log line `All instances in the EIP pool "..." are associated with an EIP`. -/
def allSatisfiedMsg (pool_name : String) : LogMsg :=
  ⟨.info, "All instances in the EIP pool \"" ++ pool_name ++ "\" are associated with an EIP"⟩

/-- Log line `No more IP addresses in the pool "..." to assign to the instances`. -/
def exhaustedMsg (pool_name : String) : LogMsg :=
  ⟨.error, "No more IP addresses in the pool \"" ++ pool_name ++ "\" to assign to the instances"⟩

/-- Log line `The Elastic IP pool "..." is short of N addresses`. -/
def shortageMsg (pool_name : String) (deficit : Nat) : LogMsg :=
  ⟨.warning, "The Elastic IP pool \"" ++ pool_name ++ "\" is short of "
      ++ toString deficit ++ " addresses"⟩

/-- Log line announcing one association attempt. -/
def associateMsg (pool_name instance_id : String) (nid : Option String)
    (allocation_id : String) : LogMsg :=
  ⟨.info, "associate ip address " ++ allocation_id ++ " from \"" ++ pool_name
      ++ "\" to network interface " ++ optStr nid ++ " of instance " ++ instance_id⟩

/-- Log line recording a failed association attempt. -/
def associateFailMsg (pool_name instance_id : String) (nid : Option String)
    (allocation_id : String) : LogMsg :=
  ⟨.error, "failed to associate ip address \"" ++ allocation_id ++ "\" from \"" ++ pool_name
      ++ "\" to network interface " ++ optStr nid ++ " of instance \"" ++ instance_id ++ "\""⟩

/-- Log line `EIP from the pool ... no longer associated with instance "..."`. -/
def removeNoopMsg (pool_name instance_id : String) : LogMsg :=
  ⟨.info, "EIP from the pool " ++ pool_name
      ++ " no longer associated with instance \"" ++ instance_id ++ "\""⟩

/-- Log line announcing one disassociation attempt. -/
def returningMsg (allocation_id instance_id pool_name : String) : LogMsg :=
  ⟨.info, "returning ip address \"" ++ allocation_id ++ "\" from instance \""
      ++ instance_id ++ "\" to pool \"" ++ pool_name ++ "\""⟩

/-- Log line recording a failed disassociation attempt. -/
def removeFailMsg (allocation_id instance_id : String) : LogMsg :=
  ⟨.error, "failed to remove elastic ip address \"" ++ allocation_id
      ++ "\" from instance \"" ++ instance_id ++ "\""⟩

/-- Log line for an instance carrying no pool tag. -/
def noPoolMsg (instance_id : String) : LogMsg :=
  ⟨.debug, "ignoring instance \"" ++ instance_id ++ "\" as it is not associated with a pool"⟩

/-- The body of `Manager.add_addresses` after the successful refresh: return
if no unattached instance, return with an error log if no available address,
warn on shortage, then attempt one `associate_address` per positional pair,
catching and logging each `ClientError` independently. -/
def add_addresses_body (w : World) (m' : Manager) : Outcome :=
    let instances := m'.unattached_instances
    if instances.isEmpty then
      ⟨[allSatisfiedMsg m'.pool_name], [], .ok ()⟩
    else
      let allocation_ids := m'.available_addresses.map EIP.allocation_id
      if allocation_ids.isEmpty then
        ⟨[exhaustedMsg m'.pool_name], [], .ok ()⟩
      else
        let shortage :=
          if allocation_ids.length < instances.length then
            [shortageMsg m'.pool_name (instances.length - allocation_ids.length)]
          else []
        let steps := (instances.zip allocation_ids).map (fun q =>
          (if w.associate_ok q.1.primary_network_interface_id q.2 then
            [associateMsg m'.pool_name q.1.instance_id q.1.primary_network_interface_id q.2]
          else
            [associateMsg m'.pool_name q.1.instance_id q.1.primary_network_interface_id q.2,
             associateFailMsg m'.pool_name q.1.instance_id q.1.primary_network_interface_id q.2],
           ApiCall.associate q.1.instance_id q.1.primary_network_interface_id q.2))
        ⟨shortage ++ (steps.map Prod.fst).flatten, steps.map Prod.snd, .ok ()⟩

/-- `Manager.add_addresses`: refresh (uncaught on failure), then run the body
on the fresh snapshot. -/
def Manager.add_addresses (w : World) (m : Manager) : Outcome :=
  match m.refresh w with
  | .error _ => ⟨[], [], .error .inventoryUnavailable⟩
  | .ok m' => add_addresses_body w m'

/-- The body of `Manager.remove_addresses` after the successful refresh:
return if no pool address is bound to the instance, else attempt one
`disassociate_address` per bound address, catching and logging each
`ClientError` independently. -/
def remove_addresses_body (w : World) (m' : Manager) (instance_id : String) : Outcome :=
    if (m'.instance_addresses instance_id).isEmpty then
      ⟨[removeNoopMsg m'.pool_name instance_id], [], .ok ()⟩
    else
      let steps := ((m'.instance_addresses instance_id).map
          (fun a => (a.allocation_id, a.association_id))).map (fun q =>
        (if w.disassociate_ok q.2 then
          [returningMsg q.1 instance_id m'.pool_name]
        else
          [returningMsg q.1 instance_id m'.pool_name, removeFailMsg q.1 instance_id],
         ApiCall.disassociate q.2))
      ⟨(steps.map Prod.fst).flatten, steps.map Prod.snd, .ok ()⟩

/-- `Manager.remove_addresses`: refresh (uncaught on failure), then run the
body on the fresh snapshot. -/
def Manager.remove_addresses (w : World) (m : Manager) (instance_id : String) : Outcome :=
  match m.refresh w with
  | .error _ => ⟨[], [], .error .inventoryUnavailable⟩
  | .ok m' => remove_addresses_body w m' instance_id

/-- `is_state_change_event`. -/
def is_state_change_event (e : Event) : Bool :=
  e.source == some "aws.ec2"
    && e.detail_type == some "EC2 Instance State-change Notification"

/-- `is_add_address_event`.  When the event is a state-change event, Python
evaluates `event.get("detail").get("state")`; a missing `detail` mapping makes
that raise `AttributeError`. -/
def is_add_address_event (e : Event) : Except Err Bool :=
  if is_state_change_event e then
    match e.detail with
    | none => .error .attributeError
    | some d => .ok (detailGet d "state" == some "running")
  else
    .ok false

/-- `is_address_removed_event`, with the same `AttributeError` behaviour. -/
def is_address_removed_event (e : Event) : Except Err Bool :=
  if is_state_change_event e then
    match e.detail with
    | none => .error .attributeError
    | some d =>
      .ok (detailGet d "state" == some "stopping"
        || detailGet d "state" == some "shutting-down"
        || detailGet d "state" == some "terminated")
  else
    .ok false

/-- `is_timer`. -/
def is_timer (e : Event) : Bool :=
  e.source == some "aws.events" && e.detail_type == some "Scheduled Event"

/-- Log line `Putting remaining elastic ips metric`. -/
def puttingMetricMsg : LogMsg :=
  ⟨.info, "Putting remaining elastic ips metric"⟩

/-- Log line `Free elastic IPs remaining N`. -/
def remainingMsg (n : Nat) : LogMsg :=
  ⟨.info, "Free elastic IPs remaining " ++ toString n⟩

/-- `put_cloudwatch_metric`: lists the pool's addresses (uncaught on failure),
counts those without an `AssociationId`, then calls `put_metric_data`
(uncaught on failure). -/
def put_cloudwatch_metric (w : World) (pool_name : String) : Outcome :=
  match w.pool_addresses pool_name with
  | .error _ => ⟨[puttingMetricMsg], [], .error .inventoryUnavailable⟩
  | .ok addrs =>
    let remaining := (addrs.filter (fun a => a.association_id == none)).length
    if w.metric_ok pool_name then
      ⟨[puttingMetricMsg, remainingMsg remaining], [], .ok ()⟩
    else
      ⟨[puttingMetricMsg, remainingMsg remaining], [], .error .metricFailure⟩

/-- The timer branch of `handler`: for each pool name, `add_addresses` then
`put_cloudwatch_metric`; an uncaught exception aborts the remaining pools. -/
def sweep (w : World) : List String → Outcome
  | [] => ⟨[], [], .ok ()⟩
  | p :: rest =>
    Outcome.seq
      (Outcome.seq (Manager.add_addresses w ⟨p, [], []⟩) (put_cloudwatch_metric w p))
      (sweep w rest)

/-- Log line for an uninteresting state-change event. -/
def ignoredStateMsg (e : Event) : LogMsg :=
  ⟨.debug, "ignored state change event "
      ++ optStr (e.detail.bind (fun d => detailGet d "state"))⟩

/-- Log line for an event from an unrecognized source. -/
def unknownEventMsg (e : Event) : LogMsg :=
  ⟨.error, "ignoring event " ++ optStr e.detail_type
      ++ " from source " ++ optStr e.source⟩

/-- `handler`, translated clause for clause.  On an add/remove trigger the
instance is resolved (`describe_pool_instance`), its pool tag checked for
truthiness, and a fresh `Manager` drives `remove_addresses` (remove trigger
only) followed by `add_addresses`.  The timer branch enumerates all pool
names (uncaught listing failure) and sweeps them.  Remaining state-change
events and unknown sources are only logged. -/
def handler (w : World) (e : Event) : Outcome :=
  match is_add_address_event e with
  | .error err => ⟨[], [], .error err⟩
  | .ok a =>
    match is_address_removed_event e with
    | .error err => ⟨[], [], .error err⟩
    | .ok r =>
      if a || r then
        match e.detail with
        | none => ⟨[], [], .error .attributeError⟩
        | some d =>
          match w.describe_pool_instance (detailGet d "instance-id") with
          | none => ⟨[], [], .ok ()⟩
          | some inst =>
            match inst.pool_name with
            | none => ⟨[noPoolMsg inst.instance_id], [], .ok ()⟩
            | some p =>
              if p.isEmpty then
                ⟨[noPoolMsg inst.instance_id], [], .ok ()⟩
              else if r then
                Outcome.seq (Manager.remove_addresses w ⟨p, [], []⟩ inst.instance_id)
                  (Manager.add_addresses w ⟨p, [], []⟩)
              else
                Manager.add_addresses w ⟨p, [], []⟩
      else if is_timer e then
        match w.all_pool_names with
        | .error _ => ⟨[], [], .error .inventoryUnavailable⟩
        | .ok pools => sweep w pools
      else if is_state_change_event e then
        ⟨[ignoredStateMsg e], [], .ok ()⟩
      else
        ⟨[unknownEventMsg e], [], .ok ()⟩

/-- Modelled from the spec: the collaborator's effect of one successful
mutation call on the address inventory (§6 `associate`/`disassociate`): a
successful `associate` binds the allocation to the instance, a successful
`disassociate` clears the matching association.  Used to express the
run-it-again idempotence claims. -/
def applyCallElem (c : ApiCall) (a : EIP) : EIP :=
  match c with
  | .associate iid _ alloc =>
    if a.allocation_id == alloc then
      { a with association_id := some ("eipassoc-" ++ alloc), instance_id := some iid }
    else a
  | .disassociate assocId =>
    if a.association_id.isSome && a.association_id == assocId then
      { a with association_id := none, instance_id := none }
    else a

/-- Apply one successful call across the address inventory. -/
def applyCall (addrs : List EIP) (c : ApiCall) : List EIP :=
  addrs.map (applyCallElem c)

/-- Apply a batch of successful calls, in order. -/
def applyCalls (addrs : List EIP) (cs : List ApiCall) : List EIP :=
  cs.foldl applyCall addrs

/-- Replace the address inventory one pool reports, leaving everything else
in the world unchanged. -/
def World.withAddresses (w : World) (p : String) (addrs : List EIP) : World :=
  { w with pool_addresses := fun q => if q == p then .ok addrs else w.pool_addresses q }

/-- The associate call built for one positional pair of the add loop. -/
def assocCall (i : EC2Instance) (al : String) : ApiCall :=
  .associate i.instance_id i.primary_network_interface_id al

/-- The instance id targeted by an associate call, if any. -/
def ApiCall.assocInstance : ApiCall → Option String
  | .associate iid _ _ => some iid
  | .disassociate _ => none

/-- The allocation id used by an associate call, if any. -/
def ApiCall.assocAllocation : ApiCall → Option String
  | .associate _ _ al => some al
  | .disassociate _ => none

/-- Whether a call is a disassociation. -/
def ApiCall.isDisassoc : ApiCall → Bool
  | .associate _ _ _ => false
  | .disassociate _ => true

/-- The image of one address under a batch of successful calls. -/
def applyElems (cs : List ApiCall) (a : EIP) : EIP :=
  cs.foldl (fun x c => applyCallElem c x) a

/-- An address with its association cleared (the effect of a successful
disassociation). -/
def clearedEIP (a : EIP) : EIP :=
  { a with association_id := none, instance_id := none }

/-- A test instance carrying the pool tag. -/
def instX : EC2Instance := ⟨"i-0a1", ["eni-0a1"], some "bastion"⟩

/-- A second test instance carrying the pool tag. -/
def instY : EC2Instance := ⟨"i-0b2", ["eni-0b2"], some "bastion"⟩

/-- A free (unassociated) test address. -/
def eipFree : EIP := ⟨"eipalloc-1", none, none⟩

/-- A test address bound to `instX`. -/
def eipBound : EIP := ⟨"eipalloc-2", some "eipassoc-2", some "i-0a1"⟩

/-- A world whose pool has no addresses and one instance. -/
def wEmptyPool : World :=
  ⟨fun _ => .ok [], fun _ => .ok [instX], fun _ => none, .ok [],
   fun _ _ => true, fun _ => true, fun _ => true⟩

/-- A world whose pool is saturated: one instance, bound to the one address. -/
def wSat : World :=
  ⟨fun _ => .ok [eipBound], fun _ => .ok [instX], fun _ => none, .ok [],
   fun _ _ => true, fun _ => true, fun _ => true⟩

/-- A world with one bound and one free address, one instance, and a resolving
`describe_pool_instance`. -/
def wRemove : World :=
  ⟨fun _ => .ok [eipBound, eipFree], fun _ => .ok [instX], fun _ => some instX,
   .ok [], fun _ _ => true, fun _ => true, fun _ => true⟩

/-- A world with one free address and two instances (a shortage of one). -/
def wMain : World :=
  ⟨fun _ => .ok [eipFree], fun _ => .ok [instX, instY], fun _ => none, .ok [],
   fun _ _ => true, fun _ => true, fun _ => true⟩

/-- `wMain` with every mutation call failing with a `ClientError`. -/
def wMainFailing : World :=
  { wMain with associate_ok := fun _ _ => false, disassociate_ok := fun _ => false }

/-- A world whose address listing fails. -/
def wFail : World :=
  ⟨fun _ => .error (), fun _ => .ok [instX], fun _ => some instX, .ok [],
   fun _ _ => true, fun _ => true, fun _ => true⟩

/-- A world with a healthy empty pool whose metric put fails. -/
def wMetricFail : World :=
  ⟨fun _ => .ok [], fun _ => .ok [], fun _ => none, .ok ["bastion"],
   fun _ _ => true, fun _ => true, fun _ => false⟩

/-- A state-change event for a terminated instance. -/
def evRemove : Event :=
  ⟨some "aws.ec2", some "EC2 Instance State-change Notification",
   some [("instance-id", "i-0a1"), ("state", "terminated")]⟩

/-- A state-change event for a running instance. -/
def evRun : Event :=
  ⟨some "aws.ec2", some "EC2 Instance State-change Notification",
   some [("instance-id", "i-0a1"), ("state", "running")]⟩

/-- A state-change event whose `detail` mapping is missing entirely. -/
def evNoDetail : Event :=
  ⟨some "aws.ec2", some "EC2 Instance State-change Notification", none⟩

/-- A state-change event whose `detail` mapping lacks the `state` field. -/
def evNoState : Event :=
  ⟨some "aws.ec2", some "EC2 Instance State-change Notification",
   some [("instance-id", "i-0a1")]⟩

/-- A running-state event whose `detail` mapping lacks the `instance-id`. -/
def evNoInstanceId : Event :=
  ⟨some "aws.ec2", some "EC2 Instance State-change Notification",
   some [("state", "running")]⟩

/-- A scheduled (timer) event. -/
def evTimer : Event :=
  ⟨some "aws.events", some "Scheduled Event", some []⟩

theorem refresh_ok (w : World) (m : Manager) (addrs : List EIP) (insts : List EC2Instance)
    (ha : w.pool_addresses m.pool_name = .ok addrs)
    (hi : w.pool_instances m.pool_name = .ok insts) :
    m.refresh w = .ok { m with addresses := addrs, instances := insts } := by
  unfold Manager.refresh
  rw [ha, hi]

theorem refresh_fail (w : World) (m : Manager)
    (h : w.pool_addresses m.pool_name = .error ()
      ∨ w.pool_instances m.pool_name = .error ()) :
    m.refresh w = .error () := by
  unfold Manager.refresh
  rcases h with h | h
  · rw [h]
  · cases hpa : w.pool_addresses m.pool_name with
    | error e => rfl
    | ok a => rw [h]

theorem add_addresses_ok_eq (w : World) (m : Manager) (addrs : List EIP)
    (insts : List EC2Instance)
    (ha : w.pool_addresses m.pool_name = .ok addrs)
    (hi : w.pool_instances m.pool_name = .ok insts) :
    Manager.add_addresses w m
      = add_addresses_body w { m with addresses := addrs, instances := insts } := by
  unfold Manager.add_addresses
  rw [refresh_ok w m addrs insts ha hi]

theorem add_addresses_fail_eq (w : World) (m : Manager)
    (h : w.pool_addresses m.pool_name = .error ()
      ∨ w.pool_instances m.pool_name = .error ()) :
    Manager.add_addresses w m = ⟨[], [], .error .inventoryUnavailable⟩ := by
  unfold Manager.add_addresses
  rw [refresh_fail w m h]

theorem remove_addresses_ok_eq (w : World) (m : Manager) (addrs : List EIP)
    (insts : List EC2Instance) (iid : String)
    (ha : w.pool_addresses m.pool_name = .ok addrs)
    (hi : w.pool_instances m.pool_name = .ok insts) :
    Manager.remove_addresses w m iid
      = remove_addresses_body w { m with addresses := addrs, instances := insts } iid := by
  unfold Manager.remove_addresses
  rw [refresh_ok w m addrs insts ha hi]

theorem remove_addresses_fail_eq (w : World) (m : Manager) (iid : String)
    (h : w.pool_addresses m.pool_name = .error ()
      ∨ w.pool_instances m.pool_name = .error ()) :
    Manager.remove_addresses w m iid = ⟨[], [], .error .inventoryUnavailable⟩ := by
  unfold Manager.remove_addresses
  rw [refresh_fail w m h]

theorem add_addresses_ok_eq' (w : World) (p : String) (a₀ addrs : List EIP)
    (i₀ insts : List EC2Instance)
    (ha : w.pool_addresses p = .ok addrs)
    (hi : w.pool_instances p = .ok insts) :
    Manager.add_addresses w ⟨p, a₀, i₀⟩ = add_addresses_body w ⟨p, addrs, insts⟩ := by
  unfold Manager.add_addresses
  rw [refresh_ok w ⟨p, a₀, i₀⟩ addrs insts ha hi]

theorem remove_addresses_ok_eq' (w : World) (p : String) (a₀ addrs : List EIP)
    (i₀ insts : List EC2Instance) (iid : String)
    (ha : w.pool_addresses p = .ok addrs)
    (hi : w.pool_instances p = .ok insts) :
    Manager.remove_addresses w ⟨p, a₀, i₀⟩ iid
      = remove_addresses_body w ⟨p, addrs, insts⟩ iid := by
  unfold Manager.remove_addresses
  rw [refresh_ok w ⟨p, a₀, i₀⟩ addrs insts ha hi]

theorem map_zip_eq_zipWith {α β γ : Type} (g : α → β → γ) :
    ∀ (l₁ : List α) (l₂ : List β),
      (l₁.zip l₂).map (fun q => g q.1 q.2) = List.zipWith g l₁ l₂
  | [], _ => rfl
  | _ :: _, [] => rfl
  | x :: l₁, y :: l₂ => by
    simp only [List.zip_cons_cons, List.map_cons, List.zipWith_cons_cons]
    rw [map_zip_eq_zipWith g l₁ l₂]

theorem add_body_calls (w : World) (m' : Manager) :
    (add_addresses_body w m').calls
      = List.zipWith assocCall m'.unattached_instances
          (m'.available_addresses.map EIP.allocation_id) := by
  simp only [add_addresses_body]
  by_cases h1 : m'.unattached_instances.isEmpty
  · rw [if_pos h1]
    rw [List.isEmpty_iff] at h1
    rw [h1]
    rfl
  · rw [if_neg h1]
    by_cases h2 : (m'.available_addresses.map EIP.allocation_id).isEmpty
    · rw [if_pos h2]
      rw [List.isEmpty_iff] at h2
      rw [h2, List.zipWith_nil_right]
    · rw [if_neg h2]
      show ((m'.unattached_instances.zip
          (m'.available_addresses.map EIP.allocation_id)).map _).map Prod.snd = _
      rw [List.map_map]
      exact map_zip_eq_zipWith assocCall _ _

theorem add_body_result (w : World) (m' : Manager) :
    (add_addresses_body w m').result = .ok () := by
  simp only [add_addresses_body]
  split
  · rfl
  · split
    · rfl
    · rfl

theorem add_body_satisfied (w : World) (m' : Manager)
    (h : m'.unattached_instances = []) :
    add_addresses_body w m' = ⟨[allSatisfiedMsg m'.pool_name], [], .ok ()⟩ := by
  simp only [add_addresses_body, h]
  rfl

theorem add_body_exhausted (w : World) (m' : Manager)
    (h1 : m'.unattached_instances ≠ []) (h2 : m'.available_addresses = []) :
    add_addresses_body w m' = ⟨[exhaustedMsg m'.pool_name], [], .ok ()⟩ := by
  simp only [add_addresses_body, h2]
  rw [if_neg (fun hh => h1 (List.isEmpty_iff.mp hh))]
  rfl

theorem add_body_shortage (w : World) (m' : Manager)
    (h1 : m'.unattached_instances ≠ [])
    (h2 : (m'.available_addresses.map EIP.allocation_id) ≠ [])
    (h3 : (m'.available_addresses.map EIP.allocation_id).length
        < m'.unattached_instances.length) :
    shortageMsg m'.pool_name
        (m'.unattached_instances.length
          - (m'.available_addresses.map EIP.allocation_id).length)
      ∈ (add_addresses_body w m').logs := by
  simp only [add_addresses_body]
  rw [if_neg (fun hh => h1 (List.isEmpty_iff.mp hh)),
    if_neg (fun hh => h2 (List.isEmpty_iff.mp hh))]
  show _ ∈ (if _ then _ else _) ++ _
  rw [if_pos h3]
  exact List.mem_append_left _ (List.mem_singleton.mpr rfl)

theorem remove_body_calls (w : World) (m' : Manager) (iid : String) :
    (remove_addresses_body w m' iid).calls
      = (m'.instance_addresses iid).map (fun a => ApiCall.disassociate a.association_id) := by
  simp only [remove_addresses_body]
  by_cases h : (m'.instance_addresses iid).isEmpty
  · rw [if_pos h]
    rw [List.isEmpty_iff] at h
    rw [h]
    rfl
  · rw [if_neg h]
    show (((m'.instance_addresses iid).map _).map _).map Prod.snd = _
    rw [List.map_map, List.map_map]
    rfl

theorem remove_body_result (w : World) (m' : Manager) (iid : String) :
    (remove_addresses_body w m' iid).result = .ok () := by
  simp only [remove_addresses_body]
  split
  · rfl
  · rfl

theorem remove_body_noop (w : World) (m' : Manager) (iid : String)
    (h : m'.instance_addresses iid = []) :
    remove_addresses_body w m' iid = ⟨[removeNoopMsg m'.pool_name iid], [], .ok ()⟩ := by
  simp only [remove_addresses_body, h]
  rfl

theorem dedupAux_subset : ∀ (seen : List String) (l : List EC2Instance)
    (i : EC2Instance), i ∈ dedupAux seen l → i ∈ l
  | _, [], i, h => by simp [dedupAux] at h
  | seen, j :: rest, i, h => by
    simp only [dedupAux] at h
    by_cases hc : seen.contains j.instance_id
    · rw [if_pos hc] at h
      exact List.mem_cons_of_mem _ (dedupAux_subset _ _ _ h)
    · rw [if_neg hc] at h
      rcases List.mem_cons.mp h with h | h
      · exact h ▸ List.mem_cons_self _ _
      · exact List.mem_cons_of_mem _ (dedupAux_subset _ _ _ h)

theorem dedupAux_not_seen : ∀ (seen : List String) (l : List EC2Instance)
    (j : EC2Instance), j ∈ dedupAux seen l → seen.contains j.instance_id = false
  | _, [], j, h => by simp [dedupAux] at h
  | seen, i :: rest, j, h => by
    simp only [dedupAux] at h
    by_cases hc : seen.contains i.instance_id
    · rw [if_pos hc] at h
      exact dedupAux_not_seen _ _ _ h
    · rw [if_neg hc] at h
      rcases List.mem_cons.mp h with h | h
      · rw [h]
        exact Bool.eq_false_iff.mpr hc
      · have htail := dedupAux_not_seen _ _ _ h
        rw [List.contains_cons] at htail
        exact (Bool.or_eq_false_iff.mp htail).2

theorem dedupAux_nodup : ∀ (seen : List String) (l : List EC2Instance),
    ((dedupAux seen l).map EC2Instance.instance_id).Nodup
  | _, [] => by simp [dedupAux]
  | seen, i :: rest => by
    simp only [dedupAux]
    by_cases hc : seen.contains i.instance_id
    · rw [if_pos hc]
      exact dedupAux_nodup _ _
    · rw [if_neg hc]
      simp only [List.map_cons, List.nodup_cons]
      constructor
      · intro hmem
        rcases List.mem_map.mp hmem with ⟨k, hk, hke⟩
        have hns := dedupAux_not_seen _ _ _ hk
        rw [List.contains_cons, hke] at hns
        simp at hns
      · exact dedupAux_nodup _ _

theorem dedupKeyed_nodup (l : List EC2Instance) :
    ((dedupKeyed l).map EC2Instance.instance_id).Nodup :=
  dedupAux_nodup [] l

theorem unattached_map_nodup (m : Manager) :
    ((m.unattached_instances).map EC2Instance.instance_id).Nodup := by
  unfold Manager.unattached_instances
  exact (dedupKeyed_nodup m.instances).sublist
    ((List.filter_sublist _).map EC2Instance.instance_id)

theorem available_map_nodup (m : Manager)
    (h : (m.addresses.map EIP.allocation_id).Nodup) :
    ((m.available_addresses).map EIP.allocation_id).Nodup := by
  unfold Manager.available_addresses
  exact h.sublist ((List.filter_sublist _).map EIP.allocation_id)

theorem zipWith_filterMap_inst :
    ∀ (U : List EC2Instance) (A : List String),
      (List.zipWith assocCall U A).filterMap ApiCall.assocInstance
        = (U.take A.length).map EC2Instance.instance_id
  | [], _ => by simp
  | _ :: _, [] => by simp
  | x :: U, y :: A => by
    show x.instance_id :: (List.zipWith assocCall U A).filterMap ApiCall.assocInstance
        = x.instance_id :: (U.take A.length).map EC2Instance.instance_id
    rw [zipWith_filterMap_inst U A]

theorem zipWith_filterMap_alloc :
    ∀ (U : List EC2Instance) (A : List String),
      (List.zipWith assocCall U A).filterMap ApiCall.assocAllocation = A.take U.length
  | [], _ => by simp
  | _ :: _, [] => by simp
  | x :: U, y :: A => by
    show y :: (List.zipWith assocCall U A).filterMap ApiCall.assocAllocation
        = y :: A.take U.length
    rw [zipWith_filterMap_alloc U A]

theorem mem_zipWith {α β γ : Type} {g : α → β → γ} {c : γ} :
    ∀ {l₁ : List α} {l₂ : List β}, c ∈ List.zipWith g l₁ l₂ →
      ∃ x, x ∈ l₁ ∧ ∃ y, y ∈ l₂ ∧ c = g x y
  | [], _, h => absurd h (by simp)
  | _ :: _, [], h => absurd h (by simp)
  | x :: l₁, y :: l₂, h => by
    rcases List.mem_cons.mp h with h | h
    · exact ⟨x, List.mem_cons_self _ _, y, List.mem_cons_self _ _, h⟩
    · rcases mem_zipWith h with ⟨x', hx, y', hy, hc⟩
      exact ⟨x', List.mem_cons_of_mem _ hx, y', List.mem_cons_of_mem _ hy, hc⟩

theorem applyCalls_eq_map : ∀ (cs : List ApiCall) (l : List EIP),
    applyCalls l cs = l.map (applyElems cs)
  | [], l => by
    show l = l.map (applyElems [])
    rw [show applyElems [] = fun a : EIP => a from rfl, List.map_id']
  | c :: cs, l => by
    show applyCalls (applyCall l c) cs = _
    rw [applyCalls_eq_map cs (applyCall l c)]
    unfold applyCall
    rw [List.map_map]
    rfl

theorem applyCallElem_disassoc (s : Option String) (a : EIP) :
    applyCallElem (ApiCall.disassociate s) a
      = if (a.association_id.isSome && (a.association_id == s)) = true
          then clearedEIP a else a := rfl

theorem applyCallElem_disassoc_cleared (s : Option String) (a : EIP) :
    applyCallElem (ApiCall.disassociate s) (clearedEIP a) = clearedEIP a := by
  rw [applyCallElem_disassoc]
  simp [clearedEIP]

theorem applyElems_disassoc_cleared : ∀ (cs : List ApiCall),
    (∀ c ∈ cs, c.isDisassoc = true) → ∀ (a : EIP),
      applyElems cs (clearedEIP a) = clearedEIP a
  | [], _, a => rfl
  | c :: cs, h, a => by
    have hc := h c (List.mem_cons_self _ _)
    cases c with
    | associate _ _ _ => simp [ApiCall.isDisassoc] at hc
    | disassociate s =>
      show applyElems cs (applyCallElem (ApiCall.disassociate s) (clearedEIP a)) = _
      rw [applyCallElem_disassoc_cleared]
      exact applyElems_disassoc_cleared cs
        (fun c hcc => h c (List.mem_cons_of_mem _ hcc)) a

theorem applyElems_disassoc_cases : ∀ (cs : List ApiCall),
    (∀ c ∈ cs, c.isDisassoc = true) → ∀ (a : EIP),
      applyElems cs a = a ∨ applyElems cs a = clearedEIP a
  | [], _, a => Or.inl rfl
  | c :: cs, h, a => by
    have hc := h c (List.mem_cons_self _ _)
    have hrest : ∀ c ∈ cs, c.isDisassoc = true :=
      fun c hcc => h c (List.mem_cons_of_mem _ hcc)
    cases c with
    | associate _ _ _ => simp [ApiCall.isDisassoc] at hc
    | disassociate s =>
      show applyElems cs (applyCallElem (ApiCall.disassociate s) a) = a
          ∨ applyElems cs (applyCallElem (ApiCall.disassociate s) a) = clearedEIP a
      by_cases hg : (a.association_id.isSome && (a.association_id == s)) = true
      · rw [applyCallElem_disassoc, if_pos hg,
          applyElems_disassoc_cleared cs hrest a]
        exact Or.inr rfl
      · rw [applyCallElem_disassoc, if_neg hg]
        exact applyElems_disassoc_cases cs hrest a

theorem applyElems_disassoc_clears : ∀ (cs : List ApiCall),
    (∀ c ∈ cs, c.isDisassoc = true) → ∀ (a : EIP),
      a.association_id.isSome = true →
      ApiCall.disassociate a.association_id ∈ cs →
      applyElems cs a = clearedEIP a
  | [], _, a, _, hc => absurd hc (by simp)
  | c :: cs, h, a, hs, hc => by
    have hc0 := h c (List.mem_cons_self _ _)
    have hrest : ∀ c ∈ cs, c.isDisassoc = true :=
      fun c hcc => h c (List.mem_cons_of_mem _ hcc)
    cases c with
    | associate _ _ _ => simp [ApiCall.isDisassoc] at hc0
    | disassociate s =>
      show applyElems cs (applyCallElem (ApiCall.disassociate s) a) = clearedEIP a
      by_cases hg : (a.association_id.isSome && (a.association_id == s)) = true
      · rw [applyCallElem_disassoc, if_pos hg]
        exact applyElems_disassoc_cleared cs hrest a
      · rw [applyCallElem_disassoc, if_neg hg]
        rcases List.mem_cons.mp hc with he | he
        · exfalso
          apply hg
          injection he with h2
          rw [hs, ← h2]
          simp
        · exact applyElems_disassoc_clears cs hrest a hs he

theorem remove_pass_clears (addrs : List EIP) (iid : String)
    (hwf : ∀ a ∈ addrs, a.instance_id.isSome = true → a.association_id.isSome = true) :
    ∀ b ∈ applyCalls addrs
        ((addrs.filter (fun a => a.instance_id == some iid)).map
          (fun a => ApiCall.disassociate a.association_id)),
      ¬ b.instance_id = some iid := by
  intro b hb
  rw [applyCalls_eq_map] at hb
  rcases List.mem_map.mp hb with ⟨a, ha, rfl⟩
  have hdis : ∀ c ∈ (addrs.filter (fun a => a.instance_id == some iid)).map
      (fun a => ApiCall.disassociate a.association_id), c.isDisassoc = true := by
    intro c hcc
    rcases List.mem_map.mp hcc with ⟨x, _, rfl⟩
    rfl
  by_cases hbound : (a.instance_id == some iid) = true
  · have hmem : ApiCall.disassociate a.association_id
        ∈ (addrs.filter (fun a => a.instance_id == some iid)).map
          (fun a => ApiCall.disassociate a.association_id) :=
      List.mem_map_of_mem _ (List.mem_filter.mpr ⟨ha, hbound⟩)
    have hs : a.association_id.isSome = true := by
      apply hwf a ha
      rw [eq_of_beq hbound]
      rfl
    rw [applyElems_disassoc_clears _ hdis a hs hmem]
    simp [clearedEIP]
  · rcases applyElems_disassoc_cases _ hdis a with he | he
    · rw [he]
      intro hh
      exact hbound (by rw [hh]; simp)
    · rw [he]
      simp [clearedEIP]

theorem add_calls_oracle_free (w : World) (p : String) (a₀ : List EIP)
    (i₀ : List EC2Instance) :
    (Manager.add_addresses w ⟨p, a₀, i₀⟩).calls
      = match w.pool_addresses p, w.pool_instances p with
        | .ok addrs, .ok insts =>
          List.zipWith assocCall (⟨p, addrs, insts⟩ : Manager).unattached_instances
            (((⟨p, addrs, insts⟩ : Manager).available_addresses).map EIP.allocation_id)
        | _, _ => [] := by
  cases hA : w.pool_addresses p with
  | error e =>
    have hA' : w.pool_addresses p = .error () := by rw [hA]
    rw [add_addresses_fail_eq w ⟨p, a₀, i₀⟩ (Or.inl hA')]
  | ok addrs =>
    cases hI : w.pool_instances p with
    | error e =>
      have hI' : w.pool_instances p = .error () := by rw [hI]
      rw [add_addresses_fail_eq w ⟨p, a₀, i₀⟩ (Or.inr hI')]
    | ok insts =>
      rw [add_addresses_ok_eq' w p a₀ addrs i₀ insts hA hI]
      exact add_body_calls w ⟨p, addrs, insts⟩

theorem remove_calls_oracle_free (w : World) (p : String) (a₀ : List EIP)
    (i₀ : List EC2Instance) (iid : String) :
    (Manager.remove_addresses w ⟨p, a₀, i₀⟩ iid).calls
      = match w.pool_addresses p, w.pool_instances p with
        | .ok addrs, .ok _ =>
          (addrs.filter (fun a => a.instance_id == some iid)).map
            (fun a => ApiCall.disassociate a.association_id)
        | _, _ => [] := by
  cases hA : w.pool_addresses p with
  | error e =>
    have hA' : w.pool_addresses p = .error () := by rw [hA]
    rw [remove_addresses_fail_eq w ⟨p, a₀, i₀⟩ iid (Or.inl hA')]
  | ok addrs =>
    cases hI : w.pool_instances p with
    | error e =>
      have hI' : w.pool_instances p = .error () := by rw [hI]
      rw [remove_addresses_fail_eq w ⟨p, a₀, i₀⟩ iid (Or.inr hI')]
    | ok insts =>
      rw [remove_addresses_ok_eq' w p a₀ addrs i₀ insts iid hA hI]
      exact remove_body_calls w ⟨p, addrs, insts⟩ iid

/-- C2: in a snapshot with at least one unattached instance and no available
address, `add_addresses` issues zero associate calls, logs exactly the
pool-exhausted error, and returns normally. -/
theorem C2_exhaustion (w : World) (p : String) (a₀ addrs : List EIP)
    (i₀ insts : List EC2Instance)
    (ha : w.pool_addresses p = .ok addrs)
    (hi : w.pool_instances p = .ok insts)
    (hU : (⟨p, addrs, insts⟩ : Manager).unattached_instances ≠ [])
    (hA : (⟨p, addrs, insts⟩ : Manager).available_addresses = []) :
    Manager.add_addresses w ⟨p, a₀, i₀⟩ = ⟨[exhaustedMsg p], [], .ok ()⟩ := by
  rw [add_addresses_ok_eq' w p a₀ addrs i₀ insts ha hi]
  exact add_body_exhausted w ⟨p, addrs, insts⟩ hU hA

/-- C2 witness: one unattached instance, zero addresses in the pool. -/
theorem C2_exhaustion_witness :
    Manager.add_addresses wEmptyPool ⟨"bastion", [], []⟩
      = ⟨[exhaustedMsg "bastion"], [], .ok ()⟩ :=
  C2_exhaustion wEmptyPool "bastion" [] [] [] [instX] rfl rfl (by decide) (by decide)

/-- C4: when every instance of the pool already holds a pool address,
`add_addresses` performs zero associate calls and only logs the satisfied
message; running it again on the resulting (unchanged) address inventory is
again such a no-op. -/
theorem C4_idempotent_saturated (w : World) (p : String) (a₀ addrs : List EIP)
    (i₀ insts : List EC2Instance)
    (ha : w.pool_addresses p = .ok addrs)
    (hi : w.pool_instances p = .ok insts)
    (hU : (⟨p, addrs, insts⟩ : Manager).unattached_instances = []) :
    Manager.add_addresses w ⟨p, a₀, i₀⟩ = ⟨[allSatisfiedMsg p], [], .ok ()⟩
    ∧ Manager.add_addresses
        (w.withAddresses p
          (applyCalls addrs (Manager.add_addresses w ⟨p, a₀, i₀⟩).calls))
        ⟨p, a₀, i₀⟩ = ⟨[allSatisfiedMsg p], [], .ok ()⟩ := by
  have h1 : Manager.add_addresses w ⟨p, a₀, i₀⟩ = ⟨[allSatisfiedMsg p], [], .ok ()⟩ := by
    rw [add_addresses_ok_eq' w p a₀ addrs i₀ insts ha hi]
    exact add_body_satisfied w ⟨p, addrs, insts⟩ hU
  refine ⟨h1, ?_⟩
  rw [h1]
  show Manager.add_addresses (w.withAddresses p (applyCalls addrs [])) ⟨p, a₀, i₀⟩ = _
  have ha' : (w.withAddresses p (applyCalls addrs [])).pool_addresses p = .ok addrs := by
    unfold World.withAddresses
    simp
    rfl
  have hi' : (w.withAddresses p (applyCalls addrs [])).pool_instances p = .ok insts := hi
  rw [add_addresses_ok_eq' _ p a₀ addrs i₀ insts ha' hi']
  exact add_body_satisfied _ ⟨p, addrs, insts⟩ hU

/-- C4 witness: one instance already bound to the pool's one address. -/
theorem C4_witness :
    Manager.add_addresses wSat ⟨"bastion", [], []⟩
      = ⟨[allSatisfiedMsg "bastion"], [], .ok ()⟩ :=
  (C4_idempotent_saturated wSat "bastion" [] [eipBound] [] [instX] rfl rfl (by decide)).1

/-- C3 (amended): `add_addresses` issues exactly
min(unattached, available) associate calls, pairing the i-th unattached
instance with the i-th available address by position; when at least one
address is available and there are more unattached instances than available
addresses, it logs a shortage warning naming the deficit (with zero
available addresses it logs the exhaustion error of C2 instead). -/
theorem C3_positional_pairing (w : World) (p : String) (a₀ addrs : List EIP)
    (i₀ insts : List EC2Instance)
    (ha : w.pool_addresses p = .ok addrs)
    (hi : w.pool_instances p = .ok insts) :
    (Manager.add_addresses w ⟨p, a₀, i₀⟩).calls
      = List.zipWith assocCall (⟨p, addrs, insts⟩ : Manager).unattached_instances
          (((⟨p, addrs, insts⟩ : Manager).available_addresses).map EIP.allocation_id)
    ∧ (Manager.add_addresses w ⟨p, a₀, i₀⟩).calls.length
      = min ((⟨p, addrs, insts⟩ : Manager).unattached_instances).length
          ((⟨p, addrs, insts⟩ : Manager).available_addresses).length
    ∧ ((⟨p, addrs, insts⟩ : Manager).available_addresses ≠ [] →
        ((⟨p, addrs, insts⟩ : Manager).available_addresses).length
          < ((⟨p, addrs, insts⟩ : Manager).unattached_instances).length →
        shortageMsg p (((⟨p, addrs, insts⟩ : Manager).unattached_instances).length
            - ((⟨p, addrs, insts⟩ : Manager).available_addresses).length)
          ∈ (Manager.add_addresses w ⟨p, a₀, i₀⟩).logs) := by
  have heq := add_addresses_ok_eq' w p a₀ addrs i₀ insts ha hi
  refine ⟨?_, ?_, ?_⟩
  · rw [heq]
    exact add_body_calls w ⟨p, addrs, insts⟩
  · rw [heq, add_body_calls w ⟨p, addrs, insts⟩, List.length_zipWith, List.length_map]
  · intro hA hlen
    have h2 : ((⟨p, addrs, insts⟩ : Manager).available_addresses).map EIP.allocation_id ≠ [] :=
      fun hh => hA (List.map_eq_nil_iff.mp hh)
    have h1 : (⟨p, addrs, insts⟩ : Manager).unattached_instances ≠ [] := by
      intro hh
      rw [hh] at hlen
      simp at hlen
    have h3 : (((⟨p, addrs, insts⟩ : Manager).available_addresses).map EIP.allocation_id).length
        < ((⟨p, addrs, insts⟩ : Manager).unattached_instances).length := by
      rw [List.length_map]
      exact hlen
    have hmem := add_body_shortage w ⟨p, addrs, insts⟩ h1 h2 h3
    rw [List.length_map] at hmem
    rw [heq]
    exact hmem

/-- C3 witness: two unattached instances, one available address: one call,
and the one-address deficit warning is logged. -/
theorem C3_positional_pairing_witness :
    (Manager.add_addresses wMain ⟨"bastion", [], []⟩).calls
      = List.zipWith assocCall
          (⟨"bastion", [eipFree], [instX, instY]⟩ : Manager).unattached_instances
          (((⟨"bastion", [eipFree], [instX, instY]⟩ : Manager).available_addresses).map
            EIP.allocation_id)
    ∧ shortageMsg "bastion" 1 ∈ (Manager.add_addresses wMain ⟨"bastion", [], []⟩).logs := by
  have h := C3_positional_pairing wMain "bastion" [] [eipFree] [] [instX, instY] rfl rfl
  exact ⟨h.1, h.2.2 (by decide) (by decide)⟩

/-- C3 counterexample: with one unattached instance and zero available
addresses there are more unattached instances than available addresses, yet
no warning-level shortage message is logged (the exhaustion error is logged
instead), refuting the unconditional shortage-warning clause of the claim. -/
theorem C3_shortage_warning_counterexample :
    ((⟨"bastion", [], [instX]⟩ : Manager).available_addresses).length
      < ((⟨"bastion", [], [instX]⟩ : Manager).unattached_instances).length
    ∧ (Manager.add_addresses wEmptyPool ⟨"bastion", [], []⟩).logs
      = [exhaustedMsg "bastion"]
    ∧ (∀ lm ∈ (Manager.add_addresses wEmptyPool ⟨"bastion", [], []⟩).logs,
        lm.level ≠ LogLevel.warning) := by
  decide

/-- C5: `remove_addresses` is a total idempotent no-op when no pool address
is bound to the given instance id (zero disassociate calls, normal return,
address inventory unchanged), and — assuming the data-model invariant that a
bound address carries an association id — running it a second time after the
first pass's successful disassociations is such a no-op, so two consecutive
removes are equivalent to one. -/
theorem C5_remove_idempotent (w : World) (p iid : String) (a₀ addrs : List EIP)
    (i₀ insts : List EC2Instance)
    (ha : w.pool_addresses p = .ok addrs)
    (hi : w.pool_instances p = .ok insts)
    (hwf : ∀ a ∈ addrs, a.instance_id.isSome = true → a.association_id.isSome = true) :
    ((⟨p, addrs, insts⟩ : Manager).instance_addresses iid = [] →
      Manager.remove_addresses w ⟨p, a₀, i₀⟩ iid = ⟨[removeNoopMsg p iid], [], .ok ()⟩
      ∧ applyCalls addrs (Manager.remove_addresses w ⟨p, a₀, i₀⟩ iid).calls = addrs)
    ∧ (Manager.remove_addresses w ⟨p, a₀, i₀⟩ iid).result = .ok ()
    ∧ (Manager.remove_addresses
        (w.withAddresses p
          (applyCalls addrs (Manager.remove_addresses w ⟨p, a₀, i₀⟩ iid).calls))
        ⟨p, a₀, i₀⟩ iid).calls = []
    ∧ (Manager.remove_addresses
        (w.withAddresses p
          (applyCalls addrs (Manager.remove_addresses w ⟨p, a₀, i₀⟩ iid).calls))
        ⟨p, a₀, i₀⟩ iid).result = .ok ()
    ∧ applyCalls
        (applyCalls addrs (Manager.remove_addresses w ⟨p, a₀, i₀⟩ iid).calls)
        (Manager.remove_addresses
          (w.withAddresses p
            (applyCalls addrs (Manager.remove_addresses w ⟨p, a₀, i₀⟩ iid).calls))
          ⟨p, a₀, i₀⟩ iid).calls
      = applyCalls addrs (Manager.remove_addresses w ⟨p, a₀, i₀⟩ iid).calls := by
  have heq := remove_addresses_ok_eq' w p a₀ addrs i₀ insts iid ha hi
  have hcalls : (Manager.remove_addresses w ⟨p, a₀, i₀⟩ iid).calls
      = (addrs.filter (fun a => a.instance_id == some iid)).map
          (fun a => ApiCall.disassociate a.association_id) := by
    rw [heq]
    exact remove_body_calls w ⟨p, addrs, insts⟩ iid
  have hclear := remove_pass_clears addrs iid hwf
  have hIA : (Manager.mk p (applyCalls addrs
      (Manager.remove_addresses w ⟨p, a₀, i₀⟩ iid).calls) insts).instance_addresses iid
      = [] := by
    apply List.filter_eq_nil_iff.mpr
    intro b hb
    rw [hcalls] at hb
    intro hbeq
    exact hclear b hb (eq_of_beq hbeq)
  have ha2 : (w.withAddresses p
      (applyCalls addrs (Manager.remove_addresses w ⟨p, a₀, i₀⟩ iid).calls)).pool_addresses p
      = .ok (applyCalls addrs (Manager.remove_addresses w ⟨p, a₀, i₀⟩ iid).calls) := by
    unfold World.withAddresses
    simp
  have hi2 : (w.withAddresses p
      (applyCalls addrs (Manager.remove_addresses w ⟨p, a₀, i₀⟩ iid).calls)).pool_instances p
      = .ok insts := hi
  have heq2 := remove_addresses_ok_eq' _ p a₀ _ i₀ insts iid ha2 hi2
  have hsecond : Manager.remove_addresses
      (w.withAddresses p
        (applyCalls addrs (Manager.remove_addresses w ⟨p, a₀, i₀⟩ iid).calls))
      ⟨p, a₀, i₀⟩ iid
      = ⟨[removeNoopMsg p iid], [], .ok ()⟩ := by
    rw [heq2]
    exact remove_body_noop _ _ iid hIA
  refine ⟨?_, ?_, ?_, ?_, ?_⟩
  · intro h0
    constructor
    · rw [heq]
      exact remove_body_noop w ⟨p, addrs, insts⟩ iid h0
    · rw [hcalls]
      have h0' : addrs.filter (fun a => a.instance_id == some iid) = [] := h0
      rw [h0']
      rfl
  · rw [heq]
    exact remove_body_result w ⟨p, addrs, insts⟩ iid
  · rw [hsecond]
  · rw [hsecond]
  · rw [hsecond]
    rfl

/-- C5 witness: an unknown instance id is a no-op, and after removing the
address bound to `instX` a second remove issues no disassociate call. -/
theorem C5_remove_idempotent_witness :
    Manager.remove_addresses wRemove ⟨"bastion", [], []⟩ "i-doesnotexist"
      = ⟨[removeNoopMsg "bastion" "i-doesnotexist"], [], .ok ()⟩
    ∧ (Manager.remove_addresses
        (wRemove.withAddresses "bastion"
          (applyCalls [eipBound, eipFree]
            (Manager.remove_addresses wRemove ⟨"bastion", [], []⟩ "i-0a1").calls))
        ⟨"bastion", [], []⟩ "i-0a1").calls = [] :=
  ⟨((C5_remove_idempotent wRemove "bastion" "i-doesnotexist" [] [eipBound, eipFree]
      [] [instX] rfl rfl (by decide)).1 (by decide)).1,
   (C5_remove_idempotent wRemove "bastion" "i-0a1" [] [eipBound, eipFree]
      [] [instX] rfl rfl (by decide)).2.2.1⟩

/-- C9: among the associate calls one `add_addresses` pass issues, every
instance id appears at most once and — given the data-model invariant that
allocation ids are unique in the snapshot — every allocation id appears at
most once. -/
theorem C9_no_over_assignment (w : World) (p : String) (a₀ addrs : List EIP)
    (i₀ insts : List EC2Instance)
    (ha : w.pool_addresses p = .ok addrs)
    (hi : w.pool_instances p = .ok insts)
    (hnd : (addrs.map EIP.allocation_id).Nodup) :
    ((Manager.add_addresses w ⟨p, a₀, i₀⟩).calls.filterMap ApiCall.assocInstance).Nodup
    ∧ ((Manager.add_addresses w ⟨p, a₀, i₀⟩).calls.filterMap ApiCall.assocAllocation).Nodup := by
  have hcalls : (Manager.add_addresses w ⟨p, a₀, i₀⟩).calls
      = List.zipWith assocCall (⟨p, addrs, insts⟩ : Manager).unattached_instances
          (((⟨p, addrs, insts⟩ : Manager).available_addresses).map EIP.allocation_id) := by
    rw [add_addresses_ok_eq' w p a₀ addrs i₀ insts ha hi]
    exact add_body_calls w ⟨p, addrs, insts⟩
  constructor
  · rw [hcalls, zipWith_filterMap_inst]
    exact (unattached_map_nodup ⟨p, addrs, insts⟩).sublist
      ((List.take_sublist _ _).map EC2Instance.instance_id)
  · rw [hcalls, zipWith_filterMap_alloc]
    exact (available_map_nodup ⟨p, addrs, insts⟩ hnd).sublist (List.take_sublist _ _)

/-- C9 witness: two unattached instances, one available address. -/
theorem C9_no_over_assignment_witness :
    ((Manager.add_addresses wMain ⟨"bastion", [], []⟩).calls.filterMap
      ApiCall.assocInstance).Nodup
    ∧ ((Manager.add_addresses wMain ⟨"bastion", [], []⟩).calls.filterMap
      ApiCall.assocAllocation).Nodup :=
  C9_no_over_assignment wMain "bastion" [] [eipFree] [] [instX, instY] rfl rfl (by decide)

/-- C10: `add_addresses` issues only associate calls, each pairing an
unattached instance of the snapshot with an available address of the
snapshot; `remove_addresses` issues only disassociate calls, each for the
association of a snapshot address bound to the given instance id. -/
theorem C10_effect_frame (w : World) (p : String) (a₀ addrs : List EIP)
    (i₀ insts : List EC2Instance) (iid : String)
    (ha : w.pool_addresses p = .ok addrs)
    (hi : w.pool_instances p = .ok insts) :
    (∀ c ∈ (Manager.add_addresses w ⟨p, a₀, i₀⟩).calls,
      ∃ inst, inst ∈ (⟨p, addrs, insts⟩ : Manager).unattached_instances
        ∧ ∃ adr, adr ∈ (⟨p, addrs, insts⟩ : Manager).available_addresses
          ∧ c = ApiCall.associate inst.instance_id
              inst.primary_network_interface_id adr.allocation_id)
    ∧ (∀ c ∈ (Manager.remove_addresses w ⟨p, a₀, i₀⟩ iid).calls,
      ∃ adr, adr ∈ addrs ∧ adr.instance_id = some iid
        ∧ c = ApiCall.disassociate adr.association_id) := by
  constructor
  · intro c hc
    have hcalls : (Manager.add_addresses w ⟨p, a₀, i₀⟩).calls
        = List.zipWith assocCall (⟨p, addrs, insts⟩ : Manager).unattached_instances
            (((⟨p, addrs, insts⟩ : Manager).available_addresses).map EIP.allocation_id) := by
      rw [add_addresses_ok_eq' w p a₀ addrs i₀ insts ha hi]
      exact add_body_calls w ⟨p, addrs, insts⟩
    rw [hcalls] at hc
    rcases mem_zipWith hc with ⟨inst, hinst, al, hal, hce⟩
    rcases List.mem_map.mp hal with ⟨adr, hadr, hale⟩
    exact ⟨inst, hinst, adr, hadr, by rw [hce, ← hale]; rfl⟩
  · intro c hc
    have hcalls : (Manager.remove_addresses w ⟨p, a₀, i₀⟩ iid).calls
        = (addrs.filter (fun a => a.instance_id == some iid)).map
            (fun a => ApiCall.disassociate a.association_id) := by
      rw [remove_addresses_ok_eq' w p a₀ addrs i₀ insts iid ha hi]
      exact remove_body_calls w ⟨p, addrs, insts⟩ iid
    rw [hcalls] at hc
    rcases List.mem_map.mp hc with ⟨adr, hadr, hce⟩
    have hf := List.mem_filter.mp hadr
    exact ⟨adr, hf.1, eq_of_beq hf.2, hce.symm⟩

/-- C10 witness: the one call of the shortage scenario pairs an unattached
instance with the one available address. -/
theorem C10_effect_frame_witness :
    ∃ inst, inst ∈ (⟨"bastion", [eipFree], [instX, instY]⟩ : Manager).unattached_instances
      ∧ ∃ adr, adr ∈ (⟨"bastion", [eipFree], [instX, instY]⟩ : Manager).available_addresses
        ∧ ApiCall.associate "i-0a1" (some "eni-0a1") "eipalloc-1"
            = ApiCall.associate inst.instance_id
                inst.primary_network_interface_id adr.allocation_id :=
  (C10_effect_frame wMain "bastion" [] [eipFree] [] [instX, instY] "i-0a1" rfl rfl).1
    (ApiCall.associate "i-0a1" (some "eni-0a1") "eipalloc-1") (by decide)

/-- C8: the calls a pass attempts do not depend on the success or failure of
the individual mutation calls (each pair is attempted regardless), and with
a healthy inventory the operations return normally whatever the mutation
outcomes. -/
theorem C8_per_item_independence (w w' : World) (p : String) (a₀ : List EIP)
    (i₀ : List EC2Instance) (iid : String)
    (hpa : w'.pool_addresses = w.pool_addresses)
    (hpi : w'.pool_instances = w.pool_instances) :
    (Manager.add_addresses w ⟨p, a₀, i₀⟩).calls
      = (Manager.add_addresses w' ⟨p, a₀, i₀⟩).calls
    ∧ (Manager.remove_addresses w ⟨p, a₀, i₀⟩ iid).calls
      = (Manager.remove_addresses w' ⟨p, a₀, i₀⟩ iid).calls
    ∧ (∀ (addrs : List EIP) (insts : List EC2Instance),
        w.pool_addresses p = .ok addrs → w.pool_instances p = .ok insts →
        (Manager.add_addresses w ⟨p, a₀, i₀⟩).result = .ok ()
        ∧ (Manager.add_addresses w' ⟨p, a₀, i₀⟩).result = .ok ()
        ∧ (Manager.remove_addresses w ⟨p, a₀, i₀⟩ iid).result = .ok ()
        ∧ (Manager.remove_addresses w' ⟨p, a₀, i₀⟩ iid).result = .ok ()) := by
  refine ⟨?_, ?_, ?_⟩
  · rw [add_calls_oracle_free w p a₀ i₀, add_calls_oracle_free w' p a₀ i₀, hpa, hpi]
  · rw [remove_calls_oracle_free w p a₀ i₀ iid, remove_calls_oracle_free w' p a₀ i₀ iid,
      hpa, hpi]
  · intro addrs insts ha hi
    have ha' : w'.pool_addresses p = .ok addrs := by rw [hpa]; exact ha
    have hi' : w'.pool_instances p = .ok insts := by rw [hpi]; exact hi
    refine ⟨?_, ?_, ?_, ?_⟩
    · rw [add_addresses_ok_eq' w p a₀ addrs i₀ insts ha hi]
      exact add_body_result w ⟨p, addrs, insts⟩
    · rw [add_addresses_ok_eq' w' p a₀ addrs i₀ insts ha' hi']
      exact add_body_result w' ⟨p, addrs, insts⟩
    · rw [remove_addresses_ok_eq' w p a₀ addrs i₀ insts iid ha hi]
      exact remove_body_result w ⟨p, addrs, insts⟩ iid
    · rw [remove_addresses_ok_eq' w' p a₀ addrs i₀ insts iid ha' hi']
      exact remove_body_result w' ⟨p, addrs, insts⟩ iid

/-- C8 witness: with every mutation call failing, the same single associate
call is still attempted and the pass still returns normally. -/
theorem C8_per_item_independence_witness :
    (Manager.add_addresses wMain ⟨"bastion", [], []⟩).calls
      = (Manager.add_addresses wMainFailing ⟨"bastion", [], []⟩).calls
    ∧ (Manager.add_addresses wMainFailing ⟨"bastion", [], []⟩).result = .ok () :=
  have h := C8_per_item_independence wMain wMainFailing "bastion" [] [] "i-0a1" rfl rfl
  ⟨h.1, (h.2.2 [eipFree] [instX, instY] rfl rfl).2.1⟩

theorem add_trigger_not_remove (e : Event)
    (h : is_add_address_event e = .ok true) :
    is_address_removed_event e = .ok false := by
  unfold is_add_address_event at h
  by_cases hsc : is_state_change_event e = true
  · rw [if_pos hsc] at h
    cases hd : e.detail with
    | none =>
      rw [hd] at h
      exact Except.noConfusion h
    | some d =>
      rw [hd] at h
      have hst : detailGet d "state" = some "running" := by
        injection h with h2
        exact eq_of_beq h2
      unfold is_address_removed_event
      rw [if_pos hsc, hd]
      show Except.ok (detailGet d "state" == some "stopping"
          || detailGet d "state" == some "shutting-down"
          || detailGet d "state" == some "terminated") = .ok false
      rw [hst]
      rfl
  · rw [if_neg hsc] at h
    injection h with h2
    exact absurd h2 (by simp)

/-- C1: on a remove-trigger event whose instance resolves to a pool, the
handler runs `remove_addresses` then `add_addresses` for that pool, in that
order; on an add-trigger it runs `add_addresses` only. -/
theorem C1_handler_call_order (w : World) (e : Event) (d : List (String × String))
    (inst : EC2Instance) (p : String) (a r : Bool)
    (hA : is_add_address_event e = .ok a)
    (hR : is_address_removed_event e = .ok r)
    (hd : e.detail = some d)
    (hfind : w.describe_pool_instance (detailGet d "instance-id") = some inst)
    (hpool : inst.pool_name = some p)
    (hpe : p.isEmpty = false) :
    (r = true →
      handler w e = Outcome.seq
        (Manager.remove_addresses w ⟨p, [], []⟩ inst.instance_id)
        (Manager.add_addresses w ⟨p, [], []⟩))
    ∧ (a = true → handler w e = Manager.add_addresses w ⟨p, [], []⟩) := by
  constructor
  · intro hr
    subst hr
    unfold handler
    rw [hA, hR]
    show (if (a || true) = true then _ else _) = _
    rw [Bool.or_true, if_pos rfl, hd]
    show (match w.describe_pool_instance (detailGet d "instance-id") with
      | none => _ | some inst => _) = _
    rw [hfind]
    show (match inst.pool_name with | none => _ | some p => _) = _
    rw [hpool]
    show (if p.isEmpty = true then _ else _) = _
    rw [hpe, if_neg (by simp), if_pos rfl]
  · intro ha'
    subst ha'
    have hr0 : r = false := by
      have hrf := add_trigger_not_remove e hA
      rw [hR] at hrf
      injection hrf with h2
    subst hr0
    unfold handler
    rw [hA, hR]
    show (if (true || false) = true then _ else _) = _
    rw [Bool.true_or, if_pos rfl, hd]
    show (match w.describe_pool_instance (detailGet d "instance-id") with
      | none => _ | some inst => _) = _
    rw [hfind]
    show (match inst.pool_name with | none => _ | some p => _) = _
    rw [hpool]
    show (if p.isEmpty = true then _ else _) = _
    rw [hpe, if_neg (by simp), if_neg (by simp)]

/-- C1 witness: a terminated-state event for `instX` in the `wRemove` world. -/
theorem C1_handler_call_order_witness :
    handler wRemove evRemove = Outcome.seq
      (Manager.remove_addresses wRemove ⟨"bastion", [], []⟩ "i-0a1")
      (Manager.add_addresses wRemove ⟨"bastion", [], []⟩) :=
  (C1_handler_call_order wRemove evRemove
      [("instance-id", "i-0a1"), ("state", "terminated")] instX "bastion" false true
      rfl rfl rfl rfl rfl rfl).1 rfl

/-- C6 counterexample: a recognized source and detail-type with no `detail`
mapping at all makes the classifier dereference `None`, and the handler
escapes with the `AttributeError` instead of degrading to the ignored
classification. -/
theorem C6_missing_detail_counterexample :
    (handler wEmptyPool evNoDetail).result = .error .attributeError
    ∧ is_add_address_event evNoDetail = .error .attributeError := by
  decide

/-- C6 (amended): classification and handling are total whenever the event
carries a `detail` mapping (however incomplete) or is not a state-change
event: a present `detail` always classifies without crashing, a missing
`state` sub-field degrades to the ignored classification, and a missing
`instance-id` sub-field (with the describe call resolving nothing) makes the
handler return normally with no calls; only a state-change event with the
`detail` mapping missing entirely crashes. -/
theorem C6_classifier_totality :
    (∀ (e : Event) (d : List (String × String)), e.detail = some d →
      (∃ b, is_add_address_event e = .ok b)
      ∧ (∃ b, is_address_removed_event e = .ok b))
    ∧ (∀ (e : Event), is_state_change_event e = false →
      is_add_address_event e = .ok false ∧ is_address_removed_event e = .ok false)
    ∧ (∀ (w : World) (e : Event) (d : List (String × String)), e.detail = some d →
      detailGet d "state" = none → is_state_change_event e = true →
      handler w e = ⟨[ignoredStateMsg e], [], .ok ()⟩)
    ∧ (∀ (w : World) (e : Event) (d : List (String × String)) (a r : Bool),
      e.detail = some d → is_add_address_event e = .ok a →
      is_address_removed_event e = .ok r → (a || r) = true →
      detailGet d "instance-id" = none → w.describe_pool_instance none = none →
      handler w e = ⟨[], [], .ok ()⟩) := by
  have htot : ∀ (e : Event) (d : List (String × String)), e.detail = some d →
      (∃ b, is_add_address_event e = .ok b)
      ∧ (∃ b, is_address_removed_event e = .ok b) := by
    intro e d hd
    by_cases hsc : is_state_change_event e = true
    · constructor
      · refine ⟨detailGet d "state" == some "running", ?_⟩
        unfold is_add_address_event
        rw [if_pos hsc, hd]
      · refine ⟨detailGet d "state" == some "stopping"
          || detailGet d "state" == some "shutting-down"
          || detailGet d "state" == some "terminated", ?_⟩
        unfold is_address_removed_event
        rw [if_pos hsc, hd]
    · exact ⟨⟨false, by unfold is_add_address_event; rw [if_neg hsc]⟩,
        ⟨false, by unfold is_address_removed_event; rw [if_neg hsc]⟩⟩
  refine ⟨htot, ?_, ?_, ?_⟩
  · intro e hsc
    constructor
    · unfold is_add_address_event
      rw [hsc]
      rfl
    · unfold is_address_removed_event
      rw [hsc]
      rfl
  · intro w e d hd hstate hsc
    have hA : is_add_address_event e = .ok false := by
      unfold is_add_address_event
      rw [if_pos hsc, hd]
      show Except.ok (detailGet d "state" == some "running") = .ok false
      rw [hstate]
      rfl
    have hR : is_address_removed_event e = .ok false := by
      unfold is_address_removed_event
      rw [if_pos hsc, hd]
      show Except.ok (detailGet d "state" == some "stopping"
          || detailGet d "state" == some "shutting-down"
          || detailGet d "state" == some "terminated") = .ok false
      rw [hstate]
      rfl
    have hsrc : e.source = some "aws.ec2" :=
      eq_of_beq (Bool.and_eq_true_iff.mp (by
        unfold is_state_change_event at hsc
        exact hsc)).1
    have htimer : is_timer e = false := by
      unfold is_timer
      rw [hsrc]
      show (false && (e.detail_type == some "Scheduled Event")) = false
      rw [Bool.false_and]
    unfold handler
    rw [hA, hR]
    show (if (false || false) = true then _ else _) = _
    rw [Bool.or_self, if_neg (by simp), htimer, if_neg (by simp), hsc, if_pos rfl]
  · intro w e d a r hd hA hR hor hiid hdesc
    unfold handler
    rw [hA, hR]
    show (if (a || r) = true then _ else _) = _
    rw [hor, if_pos rfl, hd]
    show (match w.describe_pool_instance (detailGet d "instance-id") with
      | none => _ | some inst => _) = _
    rw [hiid, hdesc]

/-- C6 witness: a missing `state` sub-field is ignored with only a debug log,
and a running event with a missing `instance-id` resolves to a clean no-op. -/
theorem C6_classifier_totality_witness :
    handler wEmptyPool evNoState = ⟨[ignoredStateMsg evNoState], [], .ok ()⟩
    ∧ handler wEmptyPool evNoInstanceId = ⟨[], [], .ok ()⟩ :=
  ⟨C6_classifier_totality.2.2.1 wEmptyPool evNoState [("instance-id", "i-0a1")]
      rfl rfl rfl,
   C6_classifier_totality.2.2.2 wEmptyPool evNoInstanceId [("state", "running")]
      true false rfl rfl rfl rfl rfl rfl⟩

/-- C7 counterexample: in the timer sweep, a failing `put_metric_data` call
escapes the handler even though no inventory listing failed, refuting the
claim that an inventory-listing failure is the only error condition that
escapes. -/
theorem C7_escape_counterexample :
    (handler wMetricFail evTimer).result = .error .metricFailure
    ∧ Err.metricFailure ≠ Err.inventoryUnavailable := by
  decide

/-- C7 (amended): if listing the pool's addresses or instances fails, the
pass aborts atomically — `add_addresses` and `remove_addresses` issue zero
mutation calls, write no logs, and raise the inventory failure — and on a
resolved trigger event the handler surfaces exactly that failure with zero
calls issued. -/
theorem C7_inventory_abort (w : World) (p : String) (a₀ : List EIP)
    (i₀ : List EC2Instance) (iid : String)
    (hfail : w.pool_addresses p = .error () ∨ w.pool_instances p = .error ()) :
    Manager.add_addresses w ⟨p, a₀, i₀⟩ = ⟨[], [], .error .inventoryUnavailable⟩
    ∧ Manager.remove_addresses w ⟨p, a₀, i₀⟩ iid = ⟨[], [], .error .inventoryUnavailable⟩
    ∧ (∀ (e : Event) (d : List (String × String)) (inst : EC2Instance) (a r : Bool),
        is_add_address_event e = .ok a → is_address_removed_event e = .ok r →
        (a || r) = true → e.detail = some d →
        w.describe_pool_instance (detailGet d "instance-id") = some inst →
        inst.pool_name = some p → p.isEmpty = false →
        handler w e = ⟨[], [], .error .inventoryUnavailable⟩) := by
  refine ⟨add_addresses_fail_eq w ⟨p, a₀, i₀⟩ hfail,
    remove_addresses_fail_eq w ⟨p, a₀, i₀⟩ iid hfail, ?_⟩
  intro e d inst a r hA hR hor hd hfind hpool hpe
  unfold handler
  rw [hA, hR]
  show (if (a || r) = true then _ else _) = _
  rw [hor, if_pos rfl, hd]
  show (match w.describe_pool_instance (detailGet d "instance-id") with
    | none => _ | some inst => _) = _
  rw [hfind]
  show (match inst.pool_name with | none => _ | some p => _) = _
  rw [hpool]
  show (if p.isEmpty = true then _ else _) = _
  rw [hpe, if_neg (by simp)]
  cases r with
  | true =>
    rw [if_pos rfl, remove_addresses_fail_eq w ⟨p, [], []⟩ inst.instance_id hfail]
    rfl
  | false =>
    rw [if_neg (by simp), add_addresses_fail_eq w ⟨p, [], []⟩ hfail]

/-- C7 witness: with the address listing failing, a remove-trigger event
surfaces the inventory failure from the handler with zero calls. -/
theorem C7_inventory_abort_witness :
    handler wFail evRemove = ⟨[], [], .error .inventoryUnavailable⟩ :=
  (C7_inventory_abort wFail "bastion" [] [] "i-0a1" (Or.inl rfl)).2.2
    evRemove [("instance-id", "i-0a1"), ("state", "terminated")] instX false true
    rfl rfl rfl rfl rfl rfl rfl

end ElasticIpManager
